import Mathlib

/-!
# Verification of the todo-app admin-service core

A shallow embedding of the admin service's data-access and service layers
(`internal/repository/postgres/*.go`, `internal/service/*.go`,
`internal/model/domain/*.go`) in Lean 4, together with theorems settling the
spec claims about version handling, soft delete, status transitions,
permission checks, admin protection, tag normalization and usage guards.

Modelling conventions:
* Go strings are modelled as `Str := List Nat` (their rune sequences).
  The character-level operations (`ToLower`, `TrimSpace`, `Fields`) are
  modelled on the ASCII range, which covers every string the embedded
  operations are applied to (tag names are validated against an
  ASCII whitelist before normalization).
* `int64` values (versions, counts) are modelled as `Int` / `Nat`;
  the program never comes near overflow, so no wrap-around is modelled.
* Timestamps are `Nat` ticks; the database clock is part of the store.
* A Go `error` result is `Option GoErr` (errors only), and a `(T, error)`
  result is `Except GoErr T`.  `fmt.Errorf("...: %w", err)` wrapping is
  `GoErr.wrapped`; the `domain.Is*Error` predicates use a type assertion
  on the *unwrapped* value, exactly as the Go code does.
* Each repository method executes one SQL statement; its effect is the
  SET clause applied to the rows matched by the WHERE clause, and
  `RowsAffected` is the number of matched rows.  Identifier generation
  (uuid) is modelled by a deterministic counter in the store.
-/

/-- Go string as its sequence of runes (code points). -/
abbrev Str := List Nat

/-- Rune sequence of a Lean string literal, to write `Str` constants. -/
def str (s : String) : Str := s.data.map Char.toNat

/-- Go `unicode.IsSpace` restricted to ASCII: space, \t, \n, \v, \f, \r. -/
def isSpaceRune (n : Nat) : Bool := n == 32 || (9 ≤ n && n ≤ 13)

/-- Go `strings.ToLower` on one ASCII rune. -/
def lowerRune (n : Nat) : Nat := if 65 ≤ n ∧ n ≤ 90 then n + 32 else n

/-- Go `strings.ToLower`. -/
def goToLower (s : Str) : Str := s.map lowerRune

/-- Go `strings.TrimSpace`: drop leading and trailing whitespace. -/
def trimSpace (s : Str) : Str :=
  ((s.dropWhile isSpaceRune).reverse.dropWhile isSpaceRune).reverse

/-- Worker for `goFields`: splits on whitespace runs, accumulating the
current word reversed. -/
def fieldsAux : List Nat → List Nat → List (List Nat)
  | [], acc => if acc.isEmpty then [] else [acc.reverse]
  | c :: rest, acc =>
    if isSpaceRune c then
      if acc.isEmpty then fieldsAux rest [] else acc.reverse :: fieldsAux rest []
    else fieldsAux rest (c :: acc)

/-- Go `strings.Fields`: the whitespace-separated words of `s`. -/
def goFields (s : Str) : List (List Nat) := fieldsAux s []

/-- Go `strings.Join(words, sep)`. -/
def joinSep (sep : Str) : List Str → Str
  | [] => []
  | [w] => w
  | w :: ws => w ++ sep ++ joinSep sep ws

/-- Does `hay` start with `needle`? -/
def startsWithSeq : Str → Str → Bool
  | _, [] => true
  | [], _ :: _ => false
  | a :: as, b :: bs => a == b && startsWithSeq as bs

/-- Does `hay` contain `needle` as a contiguous subsequence? -/
def hasSubSeq (hay needle : Str) : Bool :=
  match hay with
  | [] => needle.isEmpty
  | _ :: t => startsWithSeq hay needle || hasSubSeq t needle

/-- SQL `a ILIKE '%q%'`: case-insensitive substring match. -/
def ilikeContains (a q : Str) : Bool := hasSubSeq (goToLower a) (goToLower q)

/-- `domain.DomainError`, the typed error of `internal/model/domain/errors.go`. -/
structure DomainError where
  errType : Str
  message : Str
  code : Nat
deriving DecidableEq, Repr

/-- A Go `error` value as the core produces them: a bare `domain.DomainError`,
an `fmt.Errorf("...: %w", inner)` wrapper, or a plain error. -/
inductive GoErr where
  | domainErr (e : DomainError)
  | wrapped (msg : Str) (inner : GoErr)
  | plain (msg : Str)
deriving DecidableEq, Repr

/-- `domain.ErrNotFound`. -/
def ErrNotFound (entity : String) : GoErr :=
  .domainErr ⟨str "NOT_FOUND", str entity ++ str " not found", 404⟩

/-- `domain.ErrInvalidInput`. -/
def ErrInvalidInput (message : Str) : GoErr :=
  .domainErr ⟨str "INVALID_INPUT", message, 400⟩

/-- `domain.ErrConflict`. -/
def ErrConflict (message : Str) : GoErr :=
  .domainErr ⟨str "CONFLICT", message, 409⟩

/-- Decimal digits of a `Nat`, modelling `fmt.Sprintf("%d", n)`. -/
def natStr (n : Nat) : Str := (Nat.toDigits 10 n).map Char.toNat

/-- Decimal rendering of an `Int`. -/
def intStr (n : Int) : Str :=
  if n < 0 then 45 :: natStr n.natAbs else natStr n.natAbs

/-- `domain.ErrVersionConflict(entity, expected, actual)`. -/
def ErrVersionConflict (entity : String) (expected actual : Int) : GoErr :=
  .domainErr ⟨str "VERSION_CONFLICT",
    str entity ++ str " has been modified (expected version " ++ intStr expected
      ++ str ", actual version " ++ intStr actual ++ str ")", 409⟩

/-- `domain.ErrPermissionDenied`. -/
def ErrPermissionDenied (message : Str) : GoErr :=
  .domainErr ⟨str "PERMISSION_DENIED", message, 403⟩

/-- `domain.ErrBusinessRule`. -/
def ErrBusinessRule (message : Str) : GoErr :=
  .domainErr ⟨str "BUSINESS_RULE_VIOLATION", message, 422⟩

/-- `domain.IsNotFoundError`: type-asserts to `DomainError` (wrapping defeats
the assertion, as in the Go source) and checks the kind. -/
def IsNotFoundError : GoErr → Bool
  | .domainErr e => e.errType == str "NOT_FOUND"
  | _ => false

/-- `domain.IsVersionConflictError`. -/
def IsVersionConflictError : GoErr → Bool
  | .domainErr e => e.errType == str "VERSION_CONFLICT"
  | _ => false

/-- `domain.IsBusinessRuleError`. -/
def IsBusinessRuleError : GoErr → Bool
  | .domainErr e => e.errType == str "BUSINESS_RULE_VIOLATION"
  | _ => false

/-- `domain.IsConflictError`. -/
def IsConflictError : GoErr → Bool
  | .domainErr e => e.errType == str "CONFLICT"
  | _ => false

/-- `domain.IsInvalidInputError`. -/
def IsInvalidInputError : GoErr → Bool
  | .domainErr e => e.errType == str "INVALID_INPUT"
  | _ => false

/-- Is the error a (bare) `PERMISSION_DENIED` domain error? -/
def IsPermissionDeniedError : GoErr → Bool
  | .domainErr e => e.errType == str "PERMISSION_DENIED"
  | _ => false

namespace domain

/-- `domain.User` (internal/model/domain, user entity). -/
structure User where
  id : Str
  name : Str
  email : Str
  role : Str
  createdAt : Nat
  updatedAt : Nat
  version : Int
  isDeleted : Bool
  deletedAt : Option Nat
deriving DecidableEq, Repr

/-- `domain.UserRoleUnspecified`. -/
def UserRoleUnspecified : Str := str "unspecified"

/-- `domain.UserRoleUser`. -/
def UserRoleUser : Str := str "user"

/-- `domain.UserRoleAdmin`. -/
def UserRoleAdmin : Str := str "admin"

/-- `domain.Task` (task entity; relations live in the junction tables of
the store and are loaded on read, so they are not part of the row). -/
structure Task where
  id : Str
  title : Str
  description : Str
  assigneeId : Str
  status : Str
  priority : Str
  dueDate : Option Nat
  createdAt : Nat
  updatedAt : Nat
  version : Int
  isDeleted : Bool
  deletedAt : Option Nat
deriving DecidableEq, Repr

/-- `domain.TaskStatusUnspecified`. -/
def TaskStatusUnspecified : Str := str "unspecified"

/-- `domain.TaskStatusOpen`. -/
def TaskStatusOpen : Str := str "OPEN"

/-- `domain.TaskStatusInProgress`. -/
def TaskStatusInProgress : Str := str "IN_PROGRESS"

/-- `domain.TaskStatusCompleted`. -/
def TaskStatusCompleted : Str := str "COMPLETED"

/-- `domain.TaskStatusCancelled`. -/
def TaskStatusCancelled : Str := str "CANCELLED"

/-- `domain.TaskPriorityUnspecified`. -/
def TaskPriorityUnspecified : Str := str "unspecified"

/-- `domain.Category` (category entity). -/
structure Category where
  id : Str
  name : Str
  description : Str
  color : Str
  parentId : Option Str
  isPublic : Bool
  creatorId : Str
  createdAt : Nat
  updatedAt : Nat
  version : Int
  isDeleted : Bool
  deletedAt : Option Nat
deriving DecidableEq, Repr

/-- `domain.Tag` (tag entity). -/
structure Tag where
  id : Str
  name : Str
  color : Str
  creatorId : Str
  createdAt : Nat
  updatedAt : Nat
  version : Int
  isDeleted : Bool
  deletedAt : Option Nat
deriving DecidableEq, Repr

/-- `(*User).IsValid` from the domain model. -/
def User.IsValid (u : User) : Option GoErr :=
  if u.name.isEmpty then some (ErrInvalidInput (str "name is required"))
  else if u.email.isEmpty then some (ErrInvalidInput (str "email is required"))
  else if u.role.isEmpty || u.role == UserRoleUnspecified then
    some (ErrInvalidInput (str "valid role is required"))
  else none

/-- `(*Task).IsValid` from the domain model. -/
def Task.IsValid (t : Task) : Option GoErr :=
  if t.title.isEmpty then some (ErrInvalidInput (str "title is required"))
  else if t.assigneeId.isEmpty then some (ErrInvalidInput (str "assignee is required"))
  else if t.status.isEmpty || t.status == TaskStatusUnspecified then
    some (ErrInvalidInput (str "valid status is required"))
  else none

/-- `(*Category).IsValid` from the domain model. -/
def Category.IsValid (c : Category) : Option GoErr :=
  if c.name.isEmpty then some (ErrInvalidInput (str "category name is required"))
  else if c.creatorId.isEmpty then some (ErrInvalidInput (str "category creator is required"))
  else none

/-- `(*Tag).IsValid` from the domain model. -/
def Tag.IsValid (t : Tag) : Option GoErr :=
  if t.name.isEmpty then some (ErrInvalidInput (str "tag name is required"))
  else if t.creatorId.isEmpty then some (ErrInvalidInput (str "tag creator is required"))
  else none

end domain

/-- The backing store: one table per entity, the two junction relations,
the storage clock (`NOW()`), and the id-generator state. -/
structure DB where
  users : List domain.User
  tasks : List domain.Task
  categories : List domain.Category
  tags : List domain.Tag
  taskCategories : List (Str × Str)
  taskTags : List (Str × Str)
  now : Nat
  nextId : Nat
deriving DecidableEq, Repr

/-- The id generator backing `uuid.New()` in the model. -/
def genId (n : Nat) : Str := str "id-" ++ natStr n

namespace repository

/-- `repository.ListOptions`. -/
structure ListOptions where
  page : Int := 0
  pageSize : Int := 0
  searchQuery : Str := []
  includeDeleted : Bool := false
  sortBy : Str := []
  sortDesc : Bool := false
deriving DecidableEq, Repr

/-- `repository.TaskListOptions`. -/
structure TaskListOptions where
  base : ListOptions := {}
  assigneeId : Str := []
  status : Str := []
  priority : Str := []
  categoryIds : List Str := []
  tagIds : List Str := []
  dueBefore : Option Nat := none
  dueAfter : Option Nat := none
deriving DecidableEq, Repr

/-- `repository.CategoryListOptions`. -/
structure CategoryListOptions where
  base : ListOptions := {}
  parentId : Option Str := none
  publicOnly : Bool := false
  creatorId : Str := []
deriving DecidableEq, Repr

/-- `repository.TagListOptions`. -/
structure TagListOptions where
  base : ListOptions := {}
  creatorId : Str := []
deriving DecidableEq, Repr

end repository

/-- Lexicographic order on rune sequences (SQL text comparison). -/
def strLeB : Str → Str → Bool
  | [], _ => true
  | _ :: _, [] => false
  | a :: as, b :: bs => a < b || (a == b && strLeB as bs)

/-- Effective page size: the Go repositories default `pageSize <= 0` to 50. -/
def effPageSize (pageSize : Int) : Nat :=
  if pageSize ≤ 0 then 50 else pageSize.toNat

/-- `LIMIT pageSize OFFSET page*pageSize` applied to the sorted rows. -/
def paginate (page pageSize : Int) (rows : List α) : List α :=
  let ps := effPageSize pageSize
  (rows.drop ((page * (ps : Int)).toNat)).take ps

/-- ORDER BY for tag listing: default `created_at DESC`; an explicit
`SortBy` column (only `name` is ever used by callers beside the default)
sorts ascending unless `SortDesc`. -/
def tagOrderLe (opts : repository.ListOptions) (a b : domain.Tag) : Bool :=
  if opts.sortBy.isEmpty then decide (b.createdAt ≤ a.createdAt)
  else
    let le := fun (x y : domain.Tag) =>
      if opts.sortBy == str "name" then strLeB x.name y.name
      else decide (x.createdAt ≤ y.createdAt)
    if opts.sortDesc then le b a else le a b

/-- ORDER BY for user listing: default `created_at DESC`; explicit columns
modelled: `name`, `email`, otherwise `created_at`. -/
def userOrderLe (opts : repository.ListOptions) (a b : domain.User) : Bool :=
  if opts.sortBy.isEmpty then decide (b.createdAt ≤ a.createdAt)
  else
    let le := fun (x y : domain.User) =>
      if opts.sortBy == str "name" then strLeB x.name y.name
      else if opts.sortBy == str "email" then strLeB x.email y.email
      else decide (x.createdAt ≤ y.createdAt)
    if opts.sortDesc then le b a else le a b

/-- ORDER BY for task listing: default `created_at DESC`; explicit columns
modelled: `title`, otherwise `created_at`. -/
def taskOrderLe (opts : repository.ListOptions) (a b : domain.Task) : Bool :=
  if opts.sortBy.isEmpty then decide (b.createdAt ≤ a.createdAt)
  else
    let le := fun (x y : domain.Task) =>
      if opts.sortBy == str "title" then strLeB x.title y.title
      else decide (x.createdAt ≤ y.createdAt)
    if opts.sortDesc then le b a else le a b

namespace tagRepository

/-- `tagRepository.Create`: assign an id if absent, stamp timestamps and
`version = 1`, validate, INSERT (the partial unique index on
`(name, creator_id) WHERE NOT is_deleted` makes a duplicate INSERT fail). -/
def Create (db : DB) (tag : domain.Tag) : Except GoErr domain.Tag × DB :=
  let generated := tag.id.isEmpty
  let t : domain.Tag :=
    { tag with id := if generated then genId db.nextId else tag.id,
               createdAt := db.now, updatedAt := db.now, version := 1 }
  match t.IsValid with
  | some e => (.error (.wrapped (str "invalid tag") e), db)
  | none =>
    if db.tags.any (fun r => !r.isDeleted && r.name == t.name && r.creatorId == t.creatorId) then
      (.error (.plain (str "pq: duplicate key value violates unique constraint")), db)
    else
      (.ok t, { db with tags := db.tags ++ [t],
                        nextId := if generated then db.nextId + 1 else db.nextId })

/-- `tagRepository.GetByID`: `WHERE id = $1 AND is_deleted = false`. -/
def GetByID (db : DB) (id : Str) : Except GoErr domain.Tag :=
  match db.tags.find? (fun t => t.id == id && !t.isDeleted) with
  | some t => .ok t
  | none => .error (ErrNotFound "tag")

/-- `tagRepository.List`: soft-delete filter, `name ILIKE '%search%'`,
creator filter; `total` is the match count before pagination. -/
def List (db : DB) (opts : repository.TagListOptions) : List domain.Tag × Nat :=
  let cond : domain.Tag → Bool := fun t =>
    (opts.base.includeDeleted || !t.isDeleted)
    && (opts.base.searchQuery.isEmpty || ilikeContains t.name opts.base.searchQuery)
    && (opts.creatorId.isEmpty || t.creatorId == opts.creatorId)
  let rows := db.tags.filter cond
  let sorted := rows.insertionSort (fun a b => tagOrderLe opts.base a b = true)
  (paginate opts.base.page opts.base.pageSize sorted, rows.length)

/-- `tagRepository.Update`: `UPDATE tags SET name, color, updated_at
WHERE id AND version AND NOT is_deleted`.  The SET clause does **not**
touch `version`; only the caller's in-memory copy is incremented. -/
def Update (db : DB) (tag : domain.Tag) : Except GoErr domain.Tag × DB :=
  match tag.IsValid with
  | some e => (.error (.wrapped (str "invalid tag") e), db)
  | none =>
    let hit : domain.Tag → Bool := fun r =>
      r.id == tag.id && r.version == tag.version && !r.isDeleted
    if (db.tags.filter hit).length == 0 then
      (.error (ErrVersionConflict "tag" tag.version (tag.version + 1)), db)
    else
      (.ok { tag with version := tag.version + 1, updatedAt := db.now },
       { db with tags := db.tags.map fun r =>
           if hit r then { r with name := tag.name, color := tag.color, updatedAt := db.now }
           else r })

/-- `tagRepository.SoftDelete`: sets `is_deleted`/`deleted_at` on the row
matching `(id, version, NOT is_deleted)`; `version` is left untouched. -/
def SoftDelete (db : DB) (id : Str) (version : Int) : Option GoErr × DB :=
  let hit : domain.Tag → Bool := fun r =>
    r.id == id && r.version == version && !r.isDeleted
  if (db.tags.filter hit).length == 0 then
    (some (ErrVersionConflict "tag" version (version + 1)), db)
  else
    (none,
     { db with tags := db.tags.map fun r =>
         if hit r then { r with isDeleted := true, deletedAt := some db.now } else r })

/-- `tagRepository.Restore`: clears the soft-delete marker on the row
matching `(id, version, is_deleted)`; `version` is left untouched. -/
def Restore (db : DB) (id : Str) (version : Int) : Option GoErr × DB :=
  let hit : domain.Tag → Bool := fun r =>
    r.id == id && r.version == version && r.isDeleted
  if (db.tags.filter hit).length == 0 then
    (some (ErrVersionConflict "tag" version (version + 1)), db)
  else
    (none,
     { db with tags := db.tags.map fun r =>
         if hit r then { r with isDeleted := false, deletedAt := none } else r })

end tagRepository

namespace userRepository

/-- `userRepository.Create` (the `users.email` column is globally UNIQUE). -/
def Create (db : DB) (user : domain.User) : Except GoErr domain.User × DB :=
  let generated := user.id.isEmpty
  let u : domain.User :=
    { user with id := if generated then genId db.nextId else user.id,
                createdAt := db.now, updatedAt := db.now, version := 1 }
  match u.IsValid with
  | some e => (.error (.wrapped (str "invalid user") e), db)
  | none =>
    if db.users.any (fun r => r.email == u.email) then
      (.error (.plain (str "pq: duplicate key value violates unique constraint")), db)
    else
      (.ok u, { db with users := db.users ++ [u],
                        nextId := if generated then db.nextId + 1 else db.nextId })

/-- `userRepository.GetByID`: `WHERE id = $1 AND is_deleted = false`. -/
def GetByID (db : DB) (id : Str) : Except GoErr domain.User :=
  match db.users.find? (fun u => u.id == id && !u.isDeleted) with
  | some u => .ok u
  | none => .error (ErrNotFound "user")

/-- `userRepository.GetByEmail`: `WHERE email = $1 AND is_deleted = false`. -/
def GetByEmail (db : DB) (email : Str) : Except GoErr domain.User :=
  match db.users.find? (fun u => u.email == email && !u.isDeleted) with
  | some u => .ok u
  | none => .error (ErrNotFound "user")

/-- `userRepository.List`: soft-delete filter and
`(name ILIKE $q OR email ILIKE $q)`; `total` counts before pagination. -/
def List (db : DB) (opts : repository.ListOptions) : List domain.User × Nat :=
  let cond : domain.User → Bool := fun u =>
    (opts.includeDeleted || !u.isDeleted)
    && (opts.searchQuery.isEmpty
        || (ilikeContains u.name opts.searchQuery || ilikeContains u.email opts.searchQuery))
  let rows := db.users.filter cond
  let sorted := rows.insertionSort (fun a b => userOrderLe opts a b = true)
  (paginate opts.page opts.pageSize sorted, rows.length)

/-- `userRepository.Update`: `SET name, email, role, updated_at WHERE id
AND version AND NOT is_deleted`; the stored `version` is not changed,
only the in-memory copy is incremented after a non-zero row count. -/
def Update (db : DB) (user : domain.User) : Except GoErr domain.User × DB :=
  match user.IsValid with
  | some e => (.error (.wrapped (str "invalid user") e), db)
  | none =>
    let hit : domain.User → Bool := fun r =>
      r.id == user.id && r.version == user.version && !r.isDeleted
    if (db.users.filter hit).length == 0 then
      (.error (ErrVersionConflict "user" user.version (user.version + 1)), db)
    else
      (.ok { user with version := user.version + 1, updatedAt := db.now },
       { db with users := db.users.map fun r =>
           if hit r then
             { r with name := user.name, email := user.email, role := user.role,
                      updatedAt := db.now }
           else r })

/-- `userRepository.SoftDelete`: sets the delete markers; `version` is not
changed by the SET clause. -/
def SoftDelete (db : DB) (id : Str) (version : Int) : Option GoErr × DB :=
  let hit : domain.User → Bool := fun r =>
    r.id == id && r.version == version && !r.isDeleted
  if (db.users.filter hit).length == 0 then
    (some (ErrVersionConflict "user" version (version + 1)), db)
  else
    (none,
     { db with users := db.users.map fun r =>
         if hit r then { r with isDeleted := true, deletedAt := some db.now } else r })

/-- `userRepository.Restore`: `SET is_deleted = false, deleted_at = NULL,
version = version + 1 WHERE id AND version AND is_deleted` (this is the
one user-repository mutation whose SQL bumps `version`). -/
def Restore (db : DB) (id : Str) (version : Int) : Option GoErr × DB :=
  let hit : domain.User → Bool := fun r =>
    r.id == id && r.version == version && r.isDeleted
  if (db.users.filter hit).length == 0 then
    (some (ErrVersionConflict "user" version (version + 1)), db)
  else
    (none,
     { db with users := db.users.map fun r =>
         if hit r then { r with isDeleted := false, deletedAt := none, version := r.version + 1 }
         else r })

end userRepository

namespace categoryRepository

/-- `categoryRepository.Create`. -/
def Create (db : DB) (category : domain.Category) : Except GoErr domain.Category × DB :=
  let generated := category.id.isEmpty
  let c : domain.Category :=
    { category with id := if generated then genId db.nextId else category.id,
                    createdAt := db.now, updatedAt := db.now, version := 1 }
  match c.IsValid with
  | some e => (.error (.wrapped (str "invalid category") e), db)
  | none =>
    (.ok c, { db with categories := db.categories ++ [c],
                      nextId := if generated then db.nextId + 1 else db.nextId })

/-- `categoryRepository.GetByID`: `WHERE id = $1 AND is_deleted = false`. -/
def GetByID (db : DB) (id : Str) : Except GoErr domain.Category :=
  match db.categories.find? (fun c => c.id == id && !c.isDeleted) with
  | some c => .ok c
  | none => .error (ErrNotFound "category")

/-- `categoryRepository.SoftDelete`: sets the delete markers on the row
matching `(id, version, NOT is_deleted)`; `version` is not changed. -/
def SoftDelete (db : DB) (id : Str) (version : Int) : Option GoErr × DB :=
  let hit : domain.Category → Bool := fun r =>
    r.id == id && r.version == version && !r.isDeleted
  if (db.categories.filter hit).length == 0 then
    (some (ErrVersionConflict "category" version (version + 1)), db)
  else
    (none,
     { db with categories := db.categories.map fun r =>
         if hit r then { r with isDeleted := true, deletedAt := some db.now } else r })

/-- `categoryRepository.Restore`: clears the delete markers; `version` is
not changed by the SET clause. -/
def Restore (db : DB) (id : Str) (version : Int) : Option GoErr × DB :=
  let hit : domain.Category → Bool := fun r =>
    r.id == id && r.version == version && r.isDeleted
  if (db.categories.filter hit).length == 0 then
    (some (ErrVersionConflict "category" version (version + 1)), db)
  else
    (none,
     { db with categories := db.categories.map fun r =>
         if hit r then { r with isDeleted := false, deletedAt := none } else r })

end categoryRepository

namespace taskRepository

/-- `taskRepository.Create`. -/
def Create (db : DB) (task : domain.Task) : Except GoErr domain.Task × DB :=
  let generated := task.id.isEmpty
  let t : domain.Task :=
    { task with id := if generated then genId db.nextId else task.id,
                createdAt := db.now, updatedAt := db.now, version := 1 }
  match t.IsValid with
  | some e => (.error (.wrapped (str "invalid task") e), db)
  | none =>
    (.ok t, { db with tasks := db.tasks ++ [t],
                      nextId := if generated then db.nextId + 1 else db.nextId })

/-- `taskRepository.GetByID`: `WHERE t.id = $1 AND t.is_deleted = false`.
`loadTaskRelations` only reads the junction tables to populate the
denormalized collections; the row fields the claims speak about are
returned unchanged, so the loaded collections are not modelled. -/
def GetByID (db : DB) (id : Str) : Except GoErr domain.Task :=
  match db.tasks.find? (fun t => t.id == id && !t.isDeleted) with
  | some t => .ok t
  | none => .error (ErrNotFound "task")

/-- Shared shape of the four relation mutations: verify the task's current
version inside the transaction, then run `change` on the store and touch
the task's `updated_at`. -/
def relationTxn (db : DB) (taskID : Str) (version : Int) (change : DB → DB) :
    Option GoErr × DB :=
  match db.tasks.find? (fun t => t.id == taskID && !t.isDeleted) with
  | none => (some (.wrapped (str "failed to verify task")
      (.plain (str "sql: no rows in result set"))), db)
  | some t =>
    if t.version ≠ version then
      (some (ErrVersionConflict "task" version t.version), db)
    else
      let db' := change db
      (none, { db' with tasks := db'.tasks.map fun r =>
          if r.id == taskID then { r with updatedAt := db'.now } else r })

/-- `taskRepository.AddCategories`: an empty id list returns immediately;
otherwise a short transaction verifies the version and inserts the
junction rows with `ON CONFLICT DO NOTHING`. -/
def AddCategories (db : DB) (taskID : Str) (categoryIDs : List Str) (version : Int) :
    Option GoErr × DB :=
  if categoryIDs.isEmpty then (none, db)
  else
    relationTxn db taskID version fun d =>
      let pairs := categoryIDs.foldl
        (fun acc cid => if acc.contains (taskID, cid) then acc else acc ++ [(taskID, cid)])
        d.taskCategories
      { d with taskCategories := pairs }

/-- `taskRepository.RemoveCategories`: empty list short-circuits; otherwise
version check then `DELETE FROM task_categories WHERE task_id = $1 AND
category_id = ANY($2)`. -/
def RemoveCategories (db : DB) (taskID : Str) (categoryIDs : List Str) (version : Int) :
    Option GoErr × DB :=
  if categoryIDs.isEmpty then (none, db)
  else
    relationTxn db taskID version fun d =>
      { d with taskCategories :=
          d.taskCategories.filter fun p => !(p.1 == taskID && categoryIDs.contains p.2) }

/-- `taskRepository.AddTags`: empty list short-circuits; otherwise version
check then idempotent insertion into `task_tags`. -/
def AddTags (db : DB) (taskID : Str) (tagIDs : List Str) (version : Int) :
    Option GoErr × DB :=
  if tagIDs.isEmpty then (none, db)
  else
    relationTxn db taskID version fun d =>
      let pairs := tagIDs.foldl
        (fun acc tid => if acc.contains (taskID, tid) then acc else acc ++ [(taskID, tid)])
        d.taskTags
      { d with taskTags := pairs }

/-- `taskRepository.RemoveTags`: empty list short-circuits; otherwise
version check then deletion from `task_tags`. -/
def RemoveTags (db : DB) (taskID : Str) (tagIDs : List Str) (version : Int) :
    Option GoErr × DB :=
  if tagIDs.isEmpty then (none, db)
  else
    relationTxn db taskID version fun d =>
      { d with taskTags :=
          d.taskTags.filter fun p => !(p.1 == taskID && tagIDs.contains p.2) }

/-- `taskRepository.List`.  The WHERE clause is built from the soft-delete
flag, assignee, status, priority, search and due-date options; the
`CategoryIDs` and `TagIDs` options are **never added to the conditions**
in the source, and the model mirrors that faithfully.  `total` counts
matches before pagination. -/
def List (db : DB) (opts : repository.TaskListOptions) : List domain.Task × Nat :=
  let cond : domain.Task → Bool := fun t =>
    (opts.base.includeDeleted || !t.isDeleted)
    && (opts.assigneeId.isEmpty || t.assigneeId == opts.assigneeId)
    && ((opts.status.isEmpty || opts.status == domain.TaskStatusUnspecified)
        || t.status == opts.status)
    && ((opts.priority.isEmpty || opts.priority == domain.TaskPriorityUnspecified)
        || t.priority == opts.priority)
    && (opts.base.searchQuery.isEmpty
        || (ilikeContains t.title opts.base.searchQuery
            || ilikeContains t.description opts.base.searchQuery))
    && (match opts.dueBefore with
        | none => true
        | some bound => match t.dueDate with
          | none => false
          | some d => d ≤ bound)
    && (match opts.dueAfter with
        | none => true
        | some bound => match t.dueDate with
          | none => false
          | some d => bound ≤ d)
  let rows := db.tasks.filter cond
  let sorted := rows.insertionSort (fun a b => taskOrderLe opts.base a b = true)
  (paginate opts.base.page opts.base.pageSize sorted, rows.length)

/-- `taskRepository.Update`: `SET title, description, assignee_id, status,
priority, due_date, updated_at WHERE id AND version AND NOT is_deleted`;
the stored `version` is not part of the SET clause and only the caller's
in-memory copy is incremented after a non-zero row count. -/
def Update (db : DB) (task : domain.Task) : Except GoErr domain.Task × DB :=
  match task.IsValid with
  | some e => (.error (.wrapped (str "invalid task") e), db)
  | none =>
    let hit : domain.Task → Bool := fun r =>
      r.id == task.id && r.version == task.version && !r.isDeleted
    if (db.tasks.filter hit).length == 0 then
      (.error (ErrVersionConflict "task" task.version (task.version + 1)), db)
    else
      (.ok { task with version := task.version + 1, updatedAt := db.now },
       { db with tasks := db.tasks.map fun r =>
           if hit r then
             { r with title := task.title, description := task.description,
                      assigneeId := task.assigneeId, status := task.status,
                      priority := task.priority, dueDate := task.dueDate,
                      updatedAt := db.now }
           else r })

/-- `taskRepository.SoftDelete`: sets the delete markers; `version` is not
changed by the SET clause. -/
def SoftDelete (db : DB) (id : Str) (version : Int) : Option GoErr × DB :=
  let hit : domain.Task → Bool := fun r =>
    r.id == id && r.version == version && !r.isDeleted
  if (db.tasks.filter hit).length == 0 then
    (some (ErrVersionConflict "task" version (version + 1)), db)
  else
    (none,
     { db with tasks := db.tasks.map fun r =>
         if hit r then { r with isDeleted := true, deletedAt := some db.now } else r })

/-- `taskRepository.Restore`: `SET is_deleted = false, deleted_at = NULL,
version = version + 1 WHERE id AND version AND is_deleted`. -/
def Restore (db : DB) (id : Str) (version : Int) : Option GoErr × DB :=
  let hit : domain.Task → Bool := fun r =>
    r.id == id && r.version == version && r.isDeleted
  if (db.tasks.filter hit).length == 0 then
    (some (ErrVersionConflict "task" version (version + 1)), db)
  else
    (none,
     { db with tasks := db.tasks.map fun r =>
         if hit r then { r with isDeleted := false, deletedAt := none, version := r.version + 1 }
         else r })

end taskRepository

namespace userService

/-- `userService.hasRequiredRole`'s `roleHierarchy` map: a Go map lookup
returns the zero value 0 for any role outside the two entries. -/
def roleHierarchy (role : Str) : Nat :=
  if role == domain.UserRoleUser then 1
  else if role == domain.UserRoleAdmin then 2
  else 0

/-- `userService.hasRequiredRole`. -/
def hasRequiredRole (userRole requiredRole : Str) : Bool :=
  roleHierarchy userRole ≥ roleHierarchy requiredRole

/-- `userService.countAdminUsers`: lists up to 1000 non-deleted users and
counts the admins in the returned page. -/
def countAdminUsers (db : DB) : Nat :=
  let users := (userRepository.List db { pageSize := 1000, includeDeleted := false }).1
  users.countP (fun u => u.role == domain.UserRoleAdmin)

/-- `userService.validateUserForDeletion`: last-admin protection. -/
def validateUserForDeletion (db : DB) (userID : Str) : Option GoErr :=
  match userRepository.GetByID db userID with
  | .error e => some (.wrapped (str "failed to get user for deletion validation") e)
  | .ok user =>
    if user.role == domain.UserRoleAdmin then
      if countAdminUsers db ≤ 1 then
        some (ErrBusinessRule (str "cannot delete the last admin user"))
      else none
    else none

/-- `userService.validateRoleChange`: last-admin protection for demotion. -/
def validateRoleChange (db : DB) (user : domain.User) (newRole : Str) : Option GoErr :=
  if user.role == domain.UserRoleAdmin && newRole != domain.UserRoleAdmin then
    if countAdminUsers db ≤ 1 then
      some (ErrBusinessRule (str "cannot remove admin role from the last admin user"))
    else none
  else none

/-- `userService.validateUserForUpdate`. -/
def validateUserForUpdate (user : domain.User) : Option GoErr :=
  if user.id.isEmpty then some (ErrInvalidInput (str "user ID is required for update"))
  else user.IsValid

/-- `userService.UpdateUser`: validation, email-conflict pre-check, then
the version-checked repository update. -/
def UpdateUser (db : DB) (user : domain.User) : Except GoErr domain.User × DB :=
  match validateUserForUpdate user with
  | some e => (.error e, db)
  | none =>
    let doUpdate : Unit → Except GoErr domain.User × DB := fun _ =>
      match userRepository.Update db user with
      | (.error e, db') =>
        if IsVersionConflictError e then (.error e, db')
        else (.error (.wrapped (str "failed to update user") e), db')
      | (.ok u, db') => (.ok u, db')
    match userRepository.GetByID db user.id with
    | .error e => (.error (.wrapped (str "failed to get existing user") e), db)
    | .ok existingUser =>
      if existingUser.email != user.email then
        match userRepository.GetByEmail db user.email with
        | .error e =>
          if IsNotFoundError e then doUpdate ()
          else (.error (.wrapped (str "failed to check for email conflict") e), db)
        | .ok conflictUser =>
          if conflictUser.id != user.id then
            (.error (ErrConflict (str "email already in use by another user")), db)
          else doUpdate ()
      else doUpdate ()

/-- `userService.DeleteUser`: last-admin guard, then soft delete. -/
def DeleteUser (db : DB) (id : Str) (version : Int) : Option GoErr × DB :=
  if id.isEmpty then (some (ErrInvalidInput (str "user ID is required")), db)
  else
    match validateUserForDeletion db id with
    | some e => (some e, db)
    | none =>
      match userRepository.SoftDelete db id version with
      | (some e, db') =>
        if IsVersionConflictError e then (some e, db')
        else (some (.wrapped (str "failed to delete user") e), db')
      | (none, db') => (none, db')

/-- `userService.ChangeUserRole`: load, fail-fast version check, role-change
guard, then the general update. -/
def ChangeUserRole (db : DB) (userID : Str) (newRole : Str) (version : Int) :
    Except GoErr domain.User × DB :=
  match userRepository.GetByID db userID with
  | .error e => (.error (.wrapped (str "failed to get user") e), db)
  | .ok user =>
    if user.version ≠ version then
      (.error (ErrVersionConflict "user" version user.version), db)
    else
      match validateRoleChange db user newRole with
      | some e => (.error e, db)
      | none => UpdateUser db { user with role := newRole }

/-- `userService.ValidateUserPermissions`: look the actor up and compare
role rank; a failed lookup is propagated wrapped. -/
def ValidateUserPermissions (db : DB) (userID : Str) (requiredRole : Str) : Option GoErr :=
  match userRepository.GetByID db userID with
  | .error e => some (.wrapped (str "failed to get user for permission check") e)
  | .ok user =>
    if hasRequiredRole user.role requiredRole then none
    else some (ErrPermissionDenied (str "insufficient role privileges"))

end userService

namespace taskService

/-- `taskService.validateStatusTransition`'s `validTransitions` table. -/
def validTransitions (currentStatus : Str) : Option (List Str) :=
  if currentStatus == domain.TaskStatusOpen then
    some [domain.TaskStatusInProgress, domain.TaskStatusCompleted, domain.TaskStatusCancelled]
  else if currentStatus == domain.TaskStatusInProgress then
    some [domain.TaskStatusCompleted, domain.TaskStatusOpen, domain.TaskStatusCancelled]
  else if currentStatus == domain.TaskStatusCompleted then
    some [domain.TaskStatusOpen, domain.TaskStatusInProgress]
  else if currentStatus == domain.TaskStatusCancelled then
    some [domain.TaskStatusOpen, domain.TaskStatusInProgress]
  else none

/-- `taskService.validateStatusTransition`. -/
def validateStatusTransition (currentStatus newStatus : Str) : Option GoErr :=
  match validTransitions currentStatus with
  | none => some (ErrBusinessRule (str "unknown current status: " ++ currentStatus))
  | some allowedTransitions =>
    if allowedTransitions.contains newStatus then none
    else some (ErrBusinessRule
      (str "invalid status transition from " ++ currentStatus ++ str " to " ++ newStatus))

/-- `taskService.validateTaskForUpdate`. -/
def validateTaskForUpdate (task : domain.Task) : Option GoErr :=
  if task.id.isEmpty then some (ErrInvalidInput (str "task ID is required for update"))
  else task.IsValid

/-- `taskService.UpdateTask`: validation, assignee existence check, then
the version-checked repository update. -/
def UpdateTask (db : DB) (task : domain.Task) : Except GoErr domain.Task × DB :=
  match validateTaskForUpdate task with
  | some e => (.error e, db)
  | none =>
    let doUpdate : Unit → Except GoErr domain.Task × DB := fun _ =>
      match taskRepository.Update db task with
      | (.error e, db') =>
        if IsVersionConflictError e then (.error e, db')
        else (.error (.wrapped (str "failed to update task") e), db')
      | (.ok t, db') => (.ok t, db')
    if task.assigneeId.isEmpty then doUpdate ()
    else
      match userRepository.GetByID db task.assigneeId with
      | .error e =>
        if IsNotFoundError e then (.error (ErrInvalidInput (str "assignee does not exist")), db)
        else (.error (.wrapped (str "failed to validate assignee") e), db)
      | .ok _ => doUpdate ()

/-- `taskService.AssignTask`: load, fail-fast version check, assignee
existence check, single-field change, general update. -/
def AssignTask (db : DB) (taskID assigneeID : Str) (version : Int) :
    Except GoErr domain.Task × DB :=
  match taskRepository.GetByID db taskID with
  | .error e => (.error (.wrapped (str "failed to get task") e), db)
  | .ok task =>
    if task.version ≠ version then
      (.error (ErrVersionConflict "task" version task.version), db)
    else if assigneeID.isEmpty then
      UpdateTask db { task with assigneeId := assigneeID }
    else
      match userRepository.GetByID db assigneeID with
      | .error e =>
        if IsNotFoundError e then (.error (ErrInvalidInput (str "assignee does not exist")), db)
        else (.error (.wrapped (str "failed to validate assignee") e), db)
      | .ok _ => UpdateTask db { task with assigneeId := assigneeID }

/-- `taskService.ChangeTaskStatus`: load, fail-fast version check,
transition-table validation, single-field change, general update. -/
def ChangeTaskStatus (db : DB) (taskID : Str) (status : Str) (version : Int) :
    Except GoErr domain.Task × DB :=
  match taskRepository.GetByID db taskID with
  | .error e => (.error (.wrapped (str "failed to get task") e), db)
  | .ok task =>
    if task.version ≠ version then
      (.error (ErrVersionConflict "task" version task.version), db)
    else
      match validateStatusTransition task.status status with
      | some e => (.error e, db)
      | none => UpdateTask db { task with status := status }

/-- `taskService.ChangeTaskPriority`: load, fail-fast version check,
single-field change, general update. -/
def ChangeTaskPriority (db : DB) (taskID : Str) (priority : Str) (version : Int) :
    Except GoErr domain.Task × DB :=
  match taskRepository.GetByID db taskID with
  | .error e => (.error (.wrapped (str "failed to get task") e), db)
  | .ok task =>
    if task.version ≠ version then
      (.error (ErrVersionConflict "task" version task.version), db)
    else UpdateTask db { task with priority := priority }

/-- The category-existence loop of `taskService.AddTaskCategories`. -/
def firstCategoryError (db : DB) : List Str → Option GoErr
  | [] => none
  | categoryID :: rest =>
    match categoryRepository.GetByID db categoryID with
    | .ok _ => firstCategoryError db rest
    | .error e =>
      if IsNotFoundError e then
        some (ErrInvalidInput (str "category " ++ categoryID ++ str " does not exist"))
      else some (.wrapped (str "failed to validate category") e)

/-- The tag-existence loop of `taskService.AddTaskTags`. -/
def firstTagError (db : DB) : List Str → Option GoErr
  | [] => none
  | tagID :: rest =>
    match tagRepository.GetByID db tagID with
    | .ok _ => firstTagError db rest
    | .error e =>
      if IsNotFoundError e then
        some (ErrInvalidInput (str "tag " ++ tagID ++ str " does not exist"))
      else some (.wrapped (str "failed to validate tag") e)

/-- `taskService.AddTaskCategories`: load, fail-fast version check,
category existence checks, transactional relation insert, re-read. -/
def AddTaskCategories (db : DB) (taskID : Str) (categoryIDs : List Str) (version : Int) :
    Except GoErr domain.Task × DB :=
  match taskRepository.GetByID db taskID with
  | .error e => (.error (.wrapped (str "failed to get task") e), db)
  | .ok task =>
    if task.version ≠ version then
      (.error (ErrVersionConflict "task" version task.version), db)
    else
      match firstCategoryError db categoryIDs with
      | some e => (.error e, db)
      | none =>
        match taskRepository.AddCategories db taskID categoryIDs version with
        | (some e, db') => (.error (.wrapped (str "failed to add categories") e), db')
        | (none, db') =>
          match taskRepository.GetByID db' taskID with
          | .ok t => (.ok t, db')
          | .error e => (.error e, db')

/-- `taskService.RemoveTaskCategories`: load, fail-fast version check,
transactional relation delete, re-read. -/
def RemoveTaskCategories (db : DB) (taskID : Str) (categoryIDs : List Str) (version : Int) :
    Except GoErr domain.Task × DB :=
  match taskRepository.GetByID db taskID with
  | .error e => (.error (.wrapped (str "failed to get task") e), db)
  | .ok task =>
    if task.version ≠ version then
      (.error (ErrVersionConflict "task" version task.version), db)
    else
      match taskRepository.RemoveCategories db taskID categoryIDs version with
      | (some e, db') => (.error (.wrapped (str "failed to remove categories") e), db')
      | (none, db') =>
        match taskRepository.GetByID db' taskID with
        | .ok t => (.ok t, db')
        | .error e => (.error e, db')

/-- `taskService.AddTaskTags`: load, fail-fast version check, tag existence
checks, transactional relation insert, re-read. -/
def AddTaskTags (db : DB) (taskID : Str) (tagIDs : List Str) (version : Int) :
    Except GoErr domain.Task × DB :=
  match taskRepository.GetByID db taskID with
  | .error e => (.error (.wrapped (str "failed to get task") e), db)
  | .ok task =>
    if task.version ≠ version then
      (.error (ErrVersionConflict "task" version task.version), db)
    else
      match firstTagError db tagIDs with
      | some e => (.error e, db)
      | none =>
        match taskRepository.AddTags db taskID tagIDs version with
        | (some e, db') => (.error (.wrapped (str "failed to add tags") e), db')
        | (none, db') =>
          match taskRepository.GetByID db' taskID with
          | .ok t => (.ok t, db')
          | .error e => (.error e, db')

/-- `taskService.RemoveTaskTags`: load, fail-fast version check,
transactional relation delete, re-read. -/
def RemoveTaskTags (db : DB) (taskID : Str) (tagIDs : List Str) (version : Int) :
    Except GoErr domain.Task × DB :=
  match taskRepository.GetByID db taskID with
  | .error e => (.error (.wrapped (str "failed to get task") e), db)
  | .ok task =>
    if task.version ≠ version then
      (.error (ErrVersionConflict "task" version task.version), db)
    else
      match taskRepository.RemoveTags db taskID tagIDs version with
      | (some e, db') => (.error (.wrapped (str "failed to remove tags") e), db')
      | (none, db') =>
        match taskRepository.GetByID db' taskID with
        | .ok t => (.ok t, db')
        | .error e => (.error e, db')

end taskService

namespace categoryService

/-- `categoryService.GetCategoryTaskCount`: asks the task repository for
the total with `CategoryIDs = [categoryID]`, `PageSize = 1`. -/
def GetCategoryTaskCount (db : DB) (categoryID : Str) : Nat :=
  (taskRepository.List db { base := { pageSize := 1 }, categoryIds := [categoryID] }).2

/-- `categoryService.ValidateCategoryUsage`: business-rule guard on the
task count. -/
def ValidateCategoryUsage (db : DB) (categoryID : Str) : Option GoErr :=
  let taskCount := GetCategoryTaskCount db categoryID
  if taskCount > 0 then
    some (ErrBusinessRule
      (str "cannot delete category: it is used by " ++ natStr taskCount ++ str " tasks"))
  else none

/-- `categoryService.DeleteCategory`: usage guard, then soft delete. -/
def DeleteCategory (db : DB) (id : Str) (version : Int) : Option GoErr × DB :=
  if id.isEmpty then (some (ErrInvalidInput (str "category ID is required")), db)
  else
    match ValidateCategoryUsage db id with
    | some e => (some e, db)
    | none =>
      match categoryRepository.SoftDelete db id version with
      | (some e, db') =>
        if IsVersionConflictError e then (some e, db')
        else (some (.wrapped (str "failed to delete category") e), db')
      | (none, db') => (none, db')

end categoryService

namespace tagService

/-- `tagService.normalizeTagName`: lowercase, trim, split whitespace runs,
join with hyphens. -/
def normalizeTagName (name : Str) : Str :=
  let normalized := goToLower (trimSpace name)
  joinSep [45] (goFields normalized)

/-- `tagService.validateTagName`: at most 50 characters, only ASCII
letters, digits, hyphen, underscore and space. -/
def validateTagName (name : Str) : Option GoErr :=
  if name.length > 50 then
    some (ErrInvalidInput (str "tag name cannot exceed 50 characters"))
  else if name.all (fun c =>
      (97 ≤ c && c ≤ 122) || (65 ≤ c && c ≤ 90) || (48 ≤ c && c ≤ 57)
      || c == 45 || c == 95 || c == 32) then
    none
  else some (ErrInvalidInput (str "tag name contains invalid characters"))

/-- `tagService.validateTagForCreation`. -/
def validateTagForCreation (tag : domain.Tag) : Option GoErr :=
  match tag.IsValid with
  | some e => some e
  | none =>
    if tag.name.isEmpty then some (ErrInvalidInput (str "tag name is required"))
    else validateTagName tag.name

/-- `tagService.findTagByName`: lists with the name as search query
(`PageSize = 100`) and scans for an exact match. -/
def findTagByName (db : DB) (name : Str) : Option domain.Tag :=
  let tags := (tagRepository.List db { base := { pageSize := 100, searchQuery := name } }).1
  tags.find? (fun t => t.name == name)

/-- `tagService.generateDefaultTagColor`: the first entry of the fixed
palette. -/
def generateDefaultTagColor : Str := str "#FF6B6B"

/-- `tagService.CreateTag`: validate the raw name, normalize, duplicate
pre-check, then repository create. -/
def CreateTag (db : DB) (tag : domain.Tag) : Except GoErr domain.Tag × DB :=
  match validateTagForCreation tag with
  | some e => (.error e, db)
  | none =>
    let tag' := { tag with name := normalizeTagName tag.name }
    match findTagByName db tag'.name with
    | some _ => (.error (ErrConflict (str "tag with this name already exists")), db)
    | none =>
      match tagRepository.Create db tag' with
      | (.error e, db') => (.error (.wrapped (str "failed to create tag") e), db')
      | (.ok t, db') => (.ok t, db')

/-- `tagService.FindOrCreateTag`: normalize, return the existing tag with
that exact normalized name, else create one owned by `system` with the
default palette color. -/
def FindOrCreateTag (db : DB) (name : Str) : Except GoErr domain.Tag × DB :=
  let normalizedName := normalizeTagName name
  match findTagByName db normalizedName with
  | some existing => (.ok existing, db)
  | none =>
    CreateTag db
      { id := [], name := normalizedName, color := generateDefaultTagColor,
        creatorId := str "system", createdAt := 0, updatedAt := 0, version := 0,
        isDeleted := false, deletedAt := none }

/-- `tagService.GetTagTaskCount`: asks the task repository for the total
with `TagIDs = [tagID]`, `PageSize = 1`. -/
def GetTagTaskCount (db : DB) (tagID : Str) : Nat :=
  (taskRepository.List db { base := { pageSize := 1 }, tagIds := [tagID] }).2

/-- `tagService.ValidateTagUsage`. -/
def ValidateTagUsage (db : DB) (tagID : Str) : Option GoErr :=
  let taskCount := GetTagTaskCount db tagID
  if taskCount > 0 then
    some (ErrBusinessRule
      (str "cannot delete tag: it is used by " ++ natStr taskCount ++ str " tasks"))
  else none

/-- `tagService.DeleteTag`: usage guard, then soft delete. -/
def DeleteTag (db : DB) (id : Str) (version : Int) : Option GoErr × DB :=
  if id.isEmpty then (some (ErrInvalidInput (str "tag ID is required")), db)
  else
    match ValidateTagUsage db id with
    | some e => (some e, db)
    | none =>
      match tagRepository.SoftDelete db id version with
      | (some e, db') =>
        if IsVersionConflictError e then (some e, db')
        else (some (.wrapped (str "failed to delete tag") e), db')
      | (none, db') => (none, db')

end tagService

-- Equality of `Except` results is decidable componentwise.
deriving instance DecidableEq for Except

/-- The empty store. -/
def emptyDB : DB :=
  { users := [], tasks := [], categories := [], tags := [],
    taskCategories := [], taskTags := [], now := 0, nextId := 0 }

/-- C9: for every store, task id and expected version — including stale
ones — each of the four task-relation repository mutations called with an
empty id list returns success immediately, performs no version
verification (hence raises no `VersionConflict`), and changes no state. -/
theorem c9_empty_relation_mutations_are_noops (db : DB) (taskID : Str) (version : Int) :
    taskRepository.AddCategories db taskID [] version = (none, db)
    ∧ taskRepository.RemoveCategories db taskID [] version = (none, db)
    ∧ taskRepository.AddTags db taskID [] version = (none, db)
    ∧ taskRepository.RemoveTags db taskID [] version = (none, db) :=
  ⟨rfl, rfl, rfl, rfl⟩

/-- The one-tag store used to evaluate the version-increment claim. -/
def c1Tag : domain.Tag :=
  { id := str "t1", name := str "alpha", color := str "#FF0000", creatorId := str "u1",
    createdAt := 0, updatedAt := 0, version := 1, isDeleted := false, deletedAt := none }

/-- Store holding exactly `c1Tag`. -/
def c1DB : DB := { emptyDB with tags := [c1Tag], now := 5 }

/-- C1 (code bug, evaluated at the failing input): on a store holding one
tag at version 1, `tagRepository.Update` succeeds and reports version 2 on
the in-memory entity, yet the stored version remains 1; `SoftDelete` and
`Restore` also succeed without touching the stored version.  The claim
(and the repository's own round-trip test) requires each successful
mutation to raise the stored version by exactly 1. -/
theorem c1_successful_tag_mutations_leave_stored_version_unchanged :
    ((tagRepository.Update c1DB { c1Tag with name := str "beta" }).1
      = .ok { c1Tag with name := str "beta", version := 2, updatedAt := 5 })
    ∧ ((tagRepository.Update c1DB { c1Tag with name := str "beta" }).2.tags.map
        (fun t => t.version) = [1])
    ∧ ((tagRepository.SoftDelete c1DB (str "t1") 1).1 = none)
    ∧ ((tagRepository.SoftDelete c1DB (str "t1") 1).2.tags.map (fun t => t.version) = [1])
    ∧ ((tagRepository.Restore (tagRepository.SoftDelete c1DB (str "t1") 1).2 (str "t1") 1).1
      = none)
    ∧ ((tagRepository.Restore (tagRepository.SoftDelete c1DB (str "t1") 1).2 (str "t1") 1).2.tags.map
        (fun t => t.version) = [1]) := by
  decide

/-- The one-tag store used to evaluate the soft-delete round trip. -/
def c2Tag : domain.Tag :=
  { id := str "t1", name := str "alpha", color := str "#FF0000", creatorId := str "u1",
    createdAt := 0, updatedAt := 0, version := 1, isDeleted := false, deletedAt := none }

/-- Store holding exactly `c2Tag`. -/
def c2DB : DB := { emptyDB with tags := [c2Tag], now := 7 }

/-- C2 (code bug, evaluated at the failing input): after `Create` (v = 1)
and a successful `SoftDelete(id, 1)`, `GetByID` does yield `NotFound`, but
`Restore(id, v+1 = 2)` fails with `VersionConflict` because the stored
version was never incremented; the claimed round trip never completes. -/
theorem c2_softdelete_restore_roundtrip_is_broken :
    ((tagRepository.SoftDelete c2DB (str "t1") 1).1 = none)
    ∧ (tagRepository.GetByID (tagRepository.SoftDelete c2DB (str "t1") 1).2 (str "t1")
      = .error (ErrNotFound "tag"))
    ∧ ((tagRepository.Restore (tagRepository.SoftDelete c2DB (str "t1") 1).2 (str "t1") 2).1
      = some (ErrVersionConflict "tag" 2 3)) := by
  decide

/-- Creator user for the usage-guard store. -/
def c7User : domain.User :=
  { id := str "u1", name := str "ann", email := str "a@x.com", role := str "admin",
    createdAt := 0, updatedAt := 0, version := 1, isDeleted := false, deletedAt := none }

/-- A category referenced by no task. -/
def c7Cat : domain.Category :=
  { id := str "c1", name := str "Work", description := [], color := str "#00FF00",
    parentId := none, isPublic := true, creatorId := str "u1",
    createdAt := 0, updatedAt := 0, version := 1, isDeleted := false, deletedAt := none }

/-- A tag referenced by no task. -/
def c7TagRow : domain.Tag :=
  { id := str "g1", name := str "urgent", color := str "#FF6B6B", creatorId := str "u1",
    createdAt := 0, updatedAt := 0, version := 1, isDeleted := false, deletedAt := none }

/-- A live task that references neither `c7Cat` nor `c7TagRow`. -/
def c7Task : domain.Task :=
  { id := str "k1", title := str "chore", description := [], assigneeId := str "u1",
    status := str "OPEN", priority := str "MEDIUM", dueDate := none,
    createdAt := 0, updatedAt := 0, version := 1, isDeleted := false, deletedAt := none }

/-- Store with one unrelated live task and empty junction tables. -/
def c7DB : DB :=
  { emptyDB with users := [c7User], categories := [c7Cat], tags := [c7TagRow],
                 tasks := [c7Task], now := 3 }

/-- C7 (code bug, evaluated at the failing input): the junction tables are
empty, so no non-deleted task references the category or the tag, yet both
`DeleteCategory` and `DeleteTag` are blocked with `BusinessRuleViolation`
("used by 1 tasks"): the task repository's `List` never applies the
`CategoryIDs`/`TagIDs` filters, so the usage guard counts every non-deleted
task. -/
theorem c7_usage_guard_counts_unrelated_tasks :
    c7DB.taskCategories = [] ∧ c7DB.taskTags = []
    ∧ categoryService.DeleteCategory c7DB (str "c1") 1
      = (some (ErrBusinessRule (str "cannot delete category: it is used by 1 tasks")), c7DB)
    ∧ tagService.DeleteTag c7DB (str "g1") 1
      = (some (ErrBusinessRule (str "cannot delete tag: it is used by 1 tasks")), c7DB) := by
  decide

/-- ASCII lowering is idempotent at the rune level. -/
theorem lowerRune_idem (n : Nat) : lowerRune (lowerRune n) = lowerRune n := by
  unfold lowerRune
  by_cases h : 65 ≤ n ∧ n ≤ 90
  · rw [if_pos h, if_neg (by omega)]
  · rw [if_neg h, if_neg h]

/-- Every rune of a lowered string is a fixed point of `lowerRune`. -/
theorem mem_goToLower_fixed {s : Str} {c : Nat} (h : c ∈ goToLower s) :
    lowerRune c = c := by
  unfold goToLower at h
  rcases List.mem_map.mp h with ⟨a, _, rfl⟩
  exact lowerRune_idem a

/-- Words produced by the field splitter contain no whitespace runes. -/
theorem fieldsAux_words_no_space :
    ∀ (l acc : List Nat), (∀ c ∈ acc, isSpaceRune c = false) →
      ∀ w ∈ fieldsAux l acc, ∀ c ∈ w, isSpaceRune c = false := by
  intro l
  induction l with
  | nil =>
    intro acc hacc w hw c hc
    unfold fieldsAux at hw
    split at hw
    · simp at hw
    · simp only [List.mem_singleton] at hw
      subst hw
      exact hacc c (List.mem_reverse.mp hc)
  | cons a t ih =>
    intro acc hacc w hw c hc
    unfold fieldsAux at hw
    by_cases ha : isSpaceRune a
    · rw [if_pos ha] at hw
      split at hw
      · exact ih [] (by simp) w hw c hc
      · rcases List.mem_cons.mp hw with rfl | hw'
        · exact hacc c (List.mem_reverse.mp hc)
        · exact ih [] (by simp) w hw' c hc
    · rw [if_neg ha] at hw
      refine ih (a :: acc) ?_ w hw c hc
      intro x hx
      rcases List.mem_cons.mp hx with rfl | hx'
      · simpa using ha
      · exact hacc x hx'

/-- Every rune of a split word comes from the input or the accumulator. -/
theorem fieldsAux_words_mem :
    ∀ (l acc : List Nat), ∀ w ∈ fieldsAux l acc, ∀ c ∈ w, c ∈ l ∨ c ∈ acc := by
  intro l
  induction l with
  | nil =>
    intro acc w hw c hc
    unfold fieldsAux at hw
    split at hw
    · simp at hw
    · simp only [List.mem_singleton] at hw
      subst hw
      exact Or.inr (List.mem_reverse.mp hc)
  | cons a t ih =>
    intro acc w hw c hc
    unfold fieldsAux at hw
    by_cases ha : isSpaceRune a
    · rw [if_pos ha] at hw
      split at hw
      · rcases ih [] w hw c hc with h | h
        · exact Or.inl (List.mem_cons_of_mem a h)
        · simp at h
      · rcases List.mem_cons.mp hw with rfl | hw'
        · exact Or.inr (List.mem_reverse.mp hc)
        · rcases ih [] w hw' c hc with h | h
          · exact Or.inl (List.mem_cons_of_mem a h)
          · simp at h
    · rw [if_neg ha] at hw
      rcases ih (a :: acc) w hw c hc with h | h
      · exact Or.inl (List.mem_cons_of_mem a h)
      · rcases List.mem_cons.mp h with rfl | h'
        · exact Or.inl (List.mem_cons_self _ _)
        · exact Or.inr h'

/-- Splitting a whitespace-free string yields the string as its only word
(or nothing at all when it is empty). -/
theorem fieldsAux_no_space_eq (l : List Nat) :
    ∀ acc, (∀ c ∈ l, isSpaceRune c = false) →
      fieldsAux l acc = if acc.isEmpty && l.isEmpty then [] else [acc.reverse ++ l] := by
  induction l with
  | nil =>
    intro acc h
    unfold fieldsAux
    cases acc <;> simp
  | cons a t ih =>
    intro acc h
    unfold fieldsAux
    rw [if_neg (by simp [h a (List.mem_cons_self a t)])]
    rw [ih (a :: acc) (fun c hc => h c (List.mem_cons_of_mem a hc))]
    simp

/-- `dropWhile` is the identity on lists whose members all refute `p`. -/
theorem dropWhile_eq_self_of_no (p : Nat → Bool) (l : List Nat)
    (h : ∀ c ∈ l, p c = false) : l.dropWhile p = l := by
  cases l with
  | nil => rfl
  | cons a t => simp [List.dropWhile_cons, h a (List.mem_cons_self a t)]

/-- Trimming a whitespace-free string is the identity. -/
theorem trimSpace_eq_self {l : Str} (h : ∀ c ∈ l, isSpaceRune c = false) :
    trimSpace l = l := by
  unfold trimSpace
  rw [dropWhile_eq_self_of_no _ _ h]
  rw [dropWhile_eq_self_of_no _ _ (fun c hc => h c (List.mem_reverse.mp hc))]
  exact List.reverse_reverse l

/-- Lowering a string of `lowerRune` fixed points is the identity. -/
theorem goToLower_eq_self {l : Str} (h : ∀ c ∈ l, lowerRune c = c) : goToLower l = l := by
  unfold goToLower
  calc l.map lowerRune = l.map id := List.map_congr_left h
  _ = l := List.map_id l

/-- Runes of a hyphen join are hyphens or runes of the joined words. -/
theorem mem_joinSep_hyphen {ws : List Str} {c : Nat} (h : c ∈ joinSep [45] ws) :
    c = 45 ∨ ∃ w ∈ ws, c ∈ w := by
  induction ws with
  | nil => simp [joinSep] at h
  | cons w ws ih =>
    cases ws with
    | nil =>
      rw [joinSep] at h
      exact Or.inr ⟨w, List.mem_cons_self w [], h⟩
    | cons w2 ws2 =>
      have heq : joinSep [45] (w :: w2 :: ws2) = w ++ [45] ++ joinSep [45] (w2 :: ws2) := rfl
      rw [heq] at h
      rcases List.mem_append.mp h with h1 | h2
      · rcases List.mem_append.mp h1 with ha | hb
        · exact Or.inr ⟨w, List.mem_cons_self w _, ha⟩
        · simp only [List.mem_singleton] at hb
          exact Or.inl hb
      · rcases ih h2 with h45 | ⟨w', hw', hc⟩
        · exact Or.inl h45
        · exact Or.inr ⟨w', List.mem_cons_of_mem w hw', hc⟩

/-- A normalized tag name contains no whitespace and no uppercase rune. -/
theorem mem_normalizeTagName {s : Str} {c : Nat}
    (h : c ∈ tagService.normalizeTagName s) :
    isSpaceRune c = false ∧ lowerRune c = c := by
  unfold tagService.normalizeTagName at h
  rcases mem_joinSep_hyphen h with rfl | ⟨w, hw, hc⟩
  · exact ⟨by decide, by decide⟩
  · unfold goFields at hw
    have hns := fieldsAux_words_no_space _ [] (by simp) w hw c hc
    have hmem := fieldsAux_words_mem _ [] w hw c hc
    simp only [List.not_mem_nil, or_false] at hmem
    exact ⟨hns, mem_goToLower_fixed hmem⟩

/-- `normalizeTagName` is idempotent. -/
theorem normalizeTagName_idem (s : Str) :
    tagService.normalizeTagName (tagService.normalizeTagName s)
      = tagService.normalizeTagName s := by
  have hprops : ∀ c ∈ tagService.normalizeTagName s,
      isSpaceRune c = false ∧ lowerRune c = c := fun c hc => mem_normalizeTagName hc
  show joinSep [45] (goFields (goToLower (trimSpace (tagService.normalizeTagName s))))
      = tagService.normalizeTagName s
  rw [trimSpace_eq_self (fun c hc => (hprops c hc).1)]
  rw [goToLower_eq_self (fun c hc => (hprops c hc).2)]
  unfold goFields
  rw [fieldsAux_no_space_eq _ [] (fun c hc => (hprops c hc).1)]
  cases hN : tagService.normalizeTagName s with
  | nil => rfl
  | cons a t => rfl

/-- C6: tag-name normalization lowercases, trims and collapses whitespace
runs into single hyphens before any uniqueness check; it is idempotent and
maps "  IMPORTANT  " and "important" to the same key; consequently, on the
empty store, `FindOrCreateTag("  URGENT  ")` followed by
`FindOrCreateTag("urgent")` returns the same entity id on the second call. -/
theorem c6_tag_normalization_idempotent_and_find_or_create_stable :
    (∀ s : Str, tagService.normalizeTagName (tagService.normalizeTagName s)
        = tagService.normalizeTagName s)
    ∧ tagService.normalizeTagName (str "  IMPORTANT  ")
        = tagService.normalizeTagName (str "important")
    ∧ tagService.normalizeTagName (str "  IMPORTANT  ") = str "important"
    ∧ (tagService.FindOrCreateTag emptyDB (str "  URGENT  ")).1.toOption.map (fun t => t.id)
        = some (str "id-0")
    ∧ (tagService.FindOrCreateTag
          (tagService.FindOrCreateTag emptyDB (str "  URGENT  ")).2
          (str "urgent")).1.toOption.map (fun t => t.id) = some (str "id-0") :=
  ⟨normalizeTagName_idem, by decide, by decide, by decide, by decide⟩

/-- The four recognized task statuses. -/
def taskStatuses : List Str :=
  [domain.TaskStatusOpen, domain.TaskStatusInProgress,
   domain.TaskStatusCompleted, domain.TaskStatusCancelled]

/-- The transition table of spec §4.3: the ten allowed (current, requested)
status pairs.  Self-transitions are absent from every row. -/
def allowedStatusPairs : List (Str × Str) :=
  [(domain.TaskStatusOpen, domain.TaskStatusInProgress),
   (domain.TaskStatusOpen, domain.TaskStatusCompleted),
   (domain.TaskStatusOpen, domain.TaskStatusCancelled),
   (domain.TaskStatusInProgress, domain.TaskStatusCompleted),
   (domain.TaskStatusInProgress, domain.TaskStatusOpen),
   (domain.TaskStatusInProgress, domain.TaskStatusCancelled),
   (domain.TaskStatusCompleted, domain.TaskStatusOpen),
   (domain.TaskStatusCompleted, domain.TaskStatusInProgress),
   (domain.TaskStatusCancelled, domain.TaskStatusOpen),
   (domain.TaskStatusCancelled, domain.TaskStatusInProgress)]

/-- The service's transition validator accepts exactly the table pairs. -/
theorem validateStatusTransition_none_iff (cur new : Str)
    (hc : cur ∈ taskStatuses) (hn : new ∈ taskStatuses) :
    taskService.validateStatusTransition cur new = none ↔ (cur, new) ∈ allowedStatusPairs := by
  fin_cases hc <;> fin_cases hn <;> decide

/-- Every rejection of the transition validator is a business-rule error. -/
theorem validateStatusTransition_some_business {cur new : Str} {e : GoErr}
    (h : taskService.validateStatusTransition cur new = some e) :
    IsBusinessRuleError e = true := by
  unfold taskService.validateStatusTransition at h
  split at h
  · simp only [Option.some.injEq] at h
    subst h
    rfl
  · split at h
    · cases h
    · simp only [Option.some.injEq] at h
      subst h
      rfl

/-- A successful task load returns a stored, non-deleted row with the
requested id. -/
theorem taskRepository_GetByID_ok {db : DB} {id : Str} {t : domain.Task}
    (h : taskRepository.GetByID db id = .ok t) :
    t ∈ db.tasks ∧ t.id = id ∧ t.isDeleted = false := by
  unfold taskRepository.GetByID at h
  cases hf : db.tasks.find? (fun t => t.id == id && !t.isDeleted) with
  | none => rw [hf] at h; cases h
  | some t' =>
    rw [hf] at h
    simp only [Except.ok.injEq] at h
    subst h
    have hp := List.find?_some hf
    simp only [Bool.and_eq_true, beq_iff_eq, Bool.not_eq_true'] at hp
    exact ⟨List.mem_of_find?_eq_some hf, hp.1, hp.2⟩

/-- A recognized status is non-empty and differs from `unspecified`. -/
theorem status_mem_facts {s : Str} (h : s ∈ taskStatuses) :
    s.isEmpty = false ∧ (s == domain.TaskStatusUnspecified) = false := by
  fin_cases h <;> exact ⟨rfl, rfl⟩

/-- Task validation passes when title, assignee and status are in shape. -/
theorem task_IsValid_none {t : domain.Task} (h1 : t.title.isEmpty = false)
    (h2 : t.assigneeId.isEmpty = false) (h3 : t.status.isEmpty = false)
    (h4 : (t.status == domain.TaskStatusUnspecified) = false) :
    t.IsValid = none := by
  simp [domain.Task.IsValid, h1, h2, h3, h4]

/-- C3: for a live task loaded at its current version (with a well-formed
title, an existing assignee, and a recognized current status),
`ChangeTaskStatus` with a matching version succeeds exactly when the
(current, requested) pair is in the fixed transition table — so all four
self-transitions and every other absent pair fail — and every such
rejection carries `BusinessRuleViolation`. -/
theorem c3_change_task_status_matches_transition_table
    (db : DB) (taskID : Str) (t : domain.Task)
    (hget : taskRepository.GetByID db taskID = .ok t)
    (hid : taskID.isEmpty = false)
    (htitle : t.title.isEmpty = false)
    (hassignee : t.assigneeId.isEmpty = false)
    (huser : ∃ u, userRepository.GetByID db t.assigneeId = .ok u)
    (hcur : t.status ∈ taskStatuses) :
    ∀ status ∈ taskStatuses,
      ((∃ t', (taskService.ChangeTaskStatus db taskID status t.version).1 = .ok t')
        ↔ (t.status, status) ∈ allowedStatusPairs)
      ∧ ((t.status, status) ∉ allowedStatusPairs →
          ∃ e, (taskService.ChangeTaskStatus db taskID status t.version).1 = .error e
            ∧ IsBusinessRuleError e = true) := by
  intro status hstatus
  obtain ⟨tmem, tid, tdel⟩ := taskRepository_GetByID_ok hget
  obtain ⟨u, hu⟩ := huser
  have htab := validateStatusTransition_none_iff t.status status hcur hstatus
  obtain ⟨hsne, hsnu⟩ := status_mem_facts hstatus
  cases hvt : taskService.validateStatusTransition t.status status with
  | some e =>
    have hres : (taskService.ChangeTaskStatus db taskID status t.version).1 = .error e := by
      unfold taskService.ChangeTaskStatus
      rw [hget]
      simp [hvt]
    refine ⟨⟨fun ⟨t', ht'⟩ => ?_, fun hmem => ?_⟩,
            fun _ => ⟨e, hres, validateStatusTransition_some_business hvt⟩⟩
    · rw [hres] at ht'; cases ht'
    · exact absurd (htab.mpr hmem) (by simp [hvt])
  | none =>
    have hmem := htab.mp hvt
    have hvalid : domain.Task.IsValid { t with status := status } = none :=
      task_IsValid_none htitle hassignee hsne hsnu
    have hupd : taskRepository.Update db { t with status := status }
        = (.ok { t with status := status, version := t.version + 1, updatedAt := db.now },
           { db with tasks := db.tasks.map fun r =>
               if r.id == t.id && r.version == t.version && !r.isDeleted then
                 { r with title := t.title, description := t.description,
                          assigneeId := t.assigneeId, status := status,
                          priority := t.priority, dueDate := t.dueDate,
                          updatedAt := db.now }
               else r }) := by
      unfold taskRepository.Update
      rw [hvalid]
      have hhit : t ∈ db.tasks.filter
          (fun r => r.id == t.id && r.version == t.version && !r.isDeleted) := by
        refine List.mem_filter.mpr ⟨tmem, ?_⟩
        simp [tdel]
      have hne : (db.tasks.filter
          (fun r => r.id == t.id && r.version == t.version && !r.isDeleted)).length ≠ 0 := by
        simp only [ne_eq, List.length_eq_zero]
        exact List.ne_nil_of_mem hhit
      rw [if_neg (by simpa using hne)]
    have hid2 : t.id.isEmpty = false := by rw [tid]; exact hid
    have hres : (taskService.ChangeTaskStatus db taskID status t.version).1
        = .ok { t with status := status, version := t.version + 1, updatedAt := db.now } := by
      unfold taskService.ChangeTaskStatus
      rw [hget]
      simp only [hvt]
      unfold taskService.UpdateTask taskService.validateTaskForUpdate
      simp only [hid2, hvalid, hassignee, Bool.false_eq_true, if_false]
      rw [hu]
      simp only [hupd]
      simp
    refine ⟨⟨fun _ => hmem, fun _ => ?_⟩, fun hnot => absurd hmem hnot⟩
    exact ⟨_, hres⟩

/-- Assignee for the transition-table witness store. -/
def c3User : domain.User :=
  { id := str "u1", name := str "ann", email := str "a@x.com", role := str "user",
    createdAt := 0, updatedAt := 0, version := 1, isDeleted := false, deletedAt := none }

/-- An OPEN task at version 1, assigned to `c3User`. -/
def c3Task : domain.Task :=
  { id := str "k1", title := str "write", description := [], assigneeId := str "u1",
    status := domain.TaskStatusOpen, priority := str "MEDIUM", dueDate := none,
    createdAt := 0, updatedAt := 0, version := 1, isDeleted := false, deletedAt := none }

/-- Store for the transition-table witness. -/
def c3DB : DB := { emptyDB with users := [c3User], tasks := [c3Task], now := 9 }

/-- Witness for C3: on the concrete store, OPEN → IN_PROGRESS with the
matching version succeeds. -/
theorem c3_change_task_status_matches_transition_table_witness :
    ∃ t', (taskService.ChangeTaskStatus c3DB (str "k1")
        domain.TaskStatusInProgress c3Task.version).1 = .ok t' :=
  ((c3_change_task_status_matches_transition_table c3DB (str "k1") c3Task (by decide)
      (by decide) (by decide) (by decide) ⟨c3User, by decide⟩ (by decide)
      domain.TaskStatusInProgress (by decide)).1).mpr (by decide)

/-- C8: every caller-versioned task mutation — `AssignTask`,
`ChangeTaskStatus`, `ChangeTaskPriority`, `AddTaskCategories`,
`RemoveTaskCategories`, `AddTaskTags`, `RemoveTaskTags` — first loads the
task, and on a version mismatch fails with `VersionConflict` before any
repository mutation, leaving the store untouched. -/
theorem c8_task_mutations_fail_fast_on_version_mismatch
    (db : DB) (taskID : Str) (t : domain.Task) (v : Int)
    (hget : taskRepository.GetByID db taskID = .ok t)
    (hv : v ≠ t.version)
    (assigneeID status priority : Str) (ids : List Str) :
    taskService.AssignTask db taskID assigneeID v
      = (.error (ErrVersionConflict "task" v t.version), db)
    ∧ taskService.ChangeTaskStatus db taskID status v
      = (.error (ErrVersionConflict "task" v t.version), db)
    ∧ taskService.ChangeTaskPriority db taskID priority v
      = (.error (ErrVersionConflict "task" v t.version), db)
    ∧ taskService.AddTaskCategories db taskID ids v
      = (.error (ErrVersionConflict "task" v t.version), db)
    ∧ taskService.RemoveTaskCategories db taskID ids v
      = (.error (ErrVersionConflict "task" v t.version), db)
    ∧ taskService.AddTaskTags db taskID ids v
      = (.error (ErrVersionConflict "task" v t.version), db)
    ∧ taskService.RemoveTaskTags db taskID ids v
      = (.error (ErrVersionConflict "task" v t.version), db) := by
  have hv' : t.version ≠ v := fun h => hv h.symm
  refine ⟨?_, ?_, ?_, ?_, ?_, ?_, ?_⟩
  · unfold taskService.AssignTask
    simp only [hget]
    rw [if_pos hv']
  · unfold taskService.ChangeTaskStatus
    simp only [hget]
    rw [if_pos hv']
  · unfold taskService.ChangeTaskPriority
    simp only [hget]
    rw [if_pos hv']
  · unfold taskService.AddTaskCategories
    simp only [hget]
    rw [if_pos hv']
  · unfold taskService.RemoveTaskCategories
    simp only [hget]
    rw [if_pos hv']
  · unfold taskService.AddTaskTags
    simp only [hget]
    rw [if_pos hv']
  · unfold taskService.RemoveTaskTags
    simp only [hget]
    rw [if_pos hv']

/-- A task at version 1 for the fail-fast witness. -/
def c8Task : domain.Task :=
  { id := str "k1", title := str "write", description := [], assigneeId := str "u1",
    status := domain.TaskStatusOpen, priority := str "MEDIUM", dueDate := none,
    createdAt := 0, updatedAt := 0, version := 1, isDeleted := false, deletedAt := none }

/-- Store for the fail-fast witness. -/
def c8DB : DB := { emptyDB with tasks := [c8Task], now := 2 }

/-- Witness for C8: a stale version 99 against the stored version 1 fails
with `VersionConflict` and leaves the store unchanged. -/
theorem c8_task_mutations_fail_fast_witness :
    taskService.AssignTask c8DB (str "k1") (str "u9") 99
      = (.error (ErrVersionConflict "task" 99 c8Task.version), c8DB) :=
  (c8_task_mutations_fail_fast_on_version_mismatch c8DB (str "k1") c8Task 99
    (by decide) (by decide) (str "u9") domain.TaskStatusCompleted (str "HIGH")
    [str "c9"]).1

/-- The non-deleted user rows of the store. -/
def nonDeletedUsers (db : DB) : List domain.User :=
  db.users.filter (fun u => !u.isDeleted)

/-- Admin predicate on user rows. -/
def isAdminUser (u : domain.User) : Bool := u.role == domain.UserRoleAdmin

/-- The actual number of non-deleted admin users in the store — the
quantity the last-admin business rule is meant to protect. -/
def trueAdminCount (db : DB) : Nat := (nonDeletedUsers db).countP isAdminUser

/-- The admin-count scan unfolds to counting admins among the first 1000
users of the default-sorted non-deleted listing. -/
theorem countAdminUsers_eq (db : DB) :
    userService.countAdminUsers db
      = (((db.users.filter (fun u => !u.isDeleted && true)).insertionSort
            (fun a b => decide (b.createdAt ≤ a.createdAt) = true)).take 1000).countP
          isAdminUser := rfl

/-- The scan's filter coincides with the non-deleted filter. -/
theorem filter_true_eq_nonDeleted (db : DB) :
    db.users.filter (fun u => !u.isDeleted && true) = nonDeletedUsers db := by
  unfold nonDeletedUsers
  apply List.filter_congr
  intro u _
  simp

/-- The scanned admin count never exceeds the actual admin count. -/
theorem countAdminUsers_le (db : DB) :
    userService.countAdminUsers db ≤ trueAdminCount db := by
  rw [countAdminUsers_eq]
  have hsub := List.take_sublist 1000
    ((db.users.filter (fun u => !u.isDeleted && true)).insertionSort
      (fun a b => decide (b.createdAt ≤ a.createdAt) = true))
  have hperm := List.perm_insertionSort
    (fun (a b : domain.User) => decide (b.createdAt ≤ a.createdAt) = true)
    (db.users.filter (fun u => !u.isDeleted && true))
  calc _ ≤ _ := hsub.countP_le isAdminUser
  _ = (db.users.filter (fun u => !u.isDeleted && true)).countP isAdminUser :=
      hperm.countP_eq isAdminUser
  _ = trueAdminCount db := by rw [filter_true_eq_nonDeleted]; rfl

/-- With at most 1000 non-deleted users the scan is exact. -/
theorem countAdminUsers_eq_true_count (db : DB)
    (h : (nonDeletedUsers db).length ≤ 1000) :
    userService.countAdminUsers db = trueAdminCount db := by
  rw [countAdminUsers_eq]
  have hperm := List.perm_insertionSort
    (fun (a b : domain.User) => decide (b.createdAt ≤ a.createdAt) = true)
    (db.users.filter (fun u => !u.isDeleted && true))
  have hlen : ((db.users.filter (fun u => !u.isDeleted && true)).insertionSort
      (fun a b => decide (b.createdAt ≤ a.createdAt) = true)).length ≤ 1000 := by
    rw [hperm.length_eq, filter_true_eq_nonDeleted]
    exact h
  rw [List.take_of_length_le hlen, hperm.countP_eq, filter_true_eq_nonDeleted]
  rfl

/-- A successful user load returns a stored, non-deleted row with the
requested id. -/
theorem userRepository_GetByID_ok {db : DB} {id : Str} {u : domain.User}
    (h : userRepository.GetByID db id = .ok u) :
    u ∈ db.users ∧ u.id = id ∧ u.isDeleted = false := by
  unfold userRepository.GetByID at h
  cases hf : db.users.find? (fun x => x.id == id && !x.isDeleted) with
  | none => rw [hf] at h; cases h
  | some u' =>
    rw [hf] at h
    simp only [Except.ok.injEq] at h
    subst h
    have hp := List.find?_some hf
    simp only [Bool.and_eq_true, beq_iff_eq, Bool.not_eq_true'] at hp
    exact ⟨List.mem_of_find?_eq_some hf, hp.1, hp.2⟩

/-- User validation passes when name, email and role are in shape. -/
theorem user_IsValid_none {u : domain.User} (h1 : u.name.isEmpty = false)
    (h2 : u.email.isEmpty = false) (h3 : u.role.isEmpty = false)
    (h4 : (u.role == domain.UserRoleUnspecified) = false) :
    u.IsValid = none := by
  simp [domain.User.IsValid, h1, h2, h3, h4]

/-- C4 (amended): for a live admin user, if exactly one non-deleted admin
exists then `DeleteUser` (at any version) and `ChangeUserRole(·, "user")`
(at the matching version) fail with `BusinessRuleViolation` and leave the
store unchanged; if at least two non-deleted admins exist **and the store
holds at most 1000 non-deleted users** (the admin count scans only the
first 1000 listed users), neither business rule blocks: both mutations go
through. -/
theorem c4_last_admin_protection_amended (db : DB) (userID : Str) (u : domain.User)
    (hget : userRepository.GetByID db userID = .ok u)
    (hid : userID.isEmpty = false)
    (hadmin : u.role = domain.UserRoleAdmin) :
    (trueAdminCount db = 1 →
      (∀ version : Int, userService.DeleteUser db userID version
        = (some (ErrBusinessRule (str "cannot delete the last admin user")), db))
      ∧ userService.ChangeUserRole db userID domain.UserRoleUser u.version
        = (.error (ErrBusinessRule (str "cannot remove admin role from the last admin user")), db))
    ∧ (2 ≤ trueAdminCount db → (nonDeletedUsers db).length ≤ 1000 →
      u.name.isEmpty = false → u.email.isEmpty = false →
      (userService.DeleteUser db userID u.version).1 = none
      ∧ ∃ w, (userService.ChangeUserRole db userID domain.UserRoleUser u.version).1
          = .ok w) := by
  obtain ⟨umem, uid, udel⟩ := userRepository_GetByID_ok hget
  have hradmin : (u.role == domain.UserRoleAdmin) = true := by
    rw [hadmin]; exact beq_self_eq_true _
  constructor
  · intro h1
    have hle : userService.countAdminUsers db ≤ 1 := by
      have := countAdminUsers_le db
      omega
    have hvdel : userService.validateUserForDeletion db userID
        = some (ErrBusinessRule (str "cannot delete the last admin user")) := by
      unfold userService.validateUserForDeletion
      simp only [hget]
      rw [if_pos hradmin, if_pos hle]
    constructor
    · intro version
      unfold userService.DeleteUser
      rw [if_neg (by simp [hid])]
      simp only [hvdel]
    · have hvrc : userService.validateRoleChange db u domain.UserRoleUser
          = some (ErrBusinessRule (str "cannot remove admin role from the last admin user")) := by
        unfold userService.validateRoleChange
        rw [if_pos (by rw [hadmin]; decide), if_pos hle]
      unfold userService.ChangeUserRole
      simp only [hget]
      rw [if_neg (by simp)]
      simp only [hvrc]
  · intro h2 hlen hname hemail
    have hcnt : userService.countAdminUsers db = trueAdminCount db :=
      countAdminUsers_eq_true_count db hlen
    have hnle : ¬ userService.countAdminUsers db ≤ 1 := by omega
    have hvdel : userService.validateUserForDeletion db userID = none := by
      unfold userService.validateUserForDeletion
      simp only [hget]
      rw [if_pos hradmin, if_neg hnle]
    have hhit : u ∈ db.users.filter
        (fun r => r.id == userID && r.version == u.version && !r.isDeleted) := by
      refine List.mem_filter.mpr ⟨umem, ?_⟩
      simp [uid, udel]
    have hne : (db.users.filter
        (fun r => r.id == userID && r.version == u.version && !r.isDeleted)).length ≠ 0 := by
      simp only [ne_eq, List.length_eq_zero]
      exact List.ne_nil_of_mem hhit
    have hsd : userRepository.SoftDelete db userID u.version
        = (none, { db with users := db.users.map fun r =>
            if r.id == userID && r.version == u.version && !r.isDeleted then
              { r with isDeleted := true, deletedAt := some db.now } else r }) := by
      unfold userRepository.SoftDelete
      rw [if_neg (by simpa using hne)]
    have hdel : (userService.DeleteUser db userID u.version).1 = none := by
      unfold userService.DeleteUser
      rw [if_neg (by simp [hid])]
      simp only [hvdel, hsd]
    refine ⟨hdel, ?_⟩
    have huidne : u.id.isEmpty = false := by rw [uid]; exact hid
    have hget2 : userRepository.GetByID db u.id = .ok u := by rw [uid]; exact hget
    have hvalid : domain.User.IsValid { u with role := domain.UserRoleUser } = none := by
      refine user_IsValid_none hname hemail ?_ ?_
      · show List.isEmpty domain.UserRoleUser = false
        decide
      · show (domain.UserRoleUser == domain.UserRoleUnspecified) = false
        decide
    have hhit2 : u ∈ db.users.filter
        (fun r => r.id == u.id && r.version == u.version && !r.isDeleted) := by
      refine List.mem_filter.mpr ⟨umem, ?_⟩
      simp [udel]
    have hne2 : (db.users.filter
        (fun r => r.id == u.id && r.version == u.version && !r.isDeleted)).length ≠ 0 := by
      simp only [ne_eq, List.length_eq_zero]
      exact List.ne_nil_of_mem hhit2
    have hupd : userRepository.Update db { u with role := domain.UserRoleUser }
        = (.ok { u with role := domain.UserRoleUser, version := u.version + 1,
                        updatedAt := db.now },
           { db with users := db.users.map fun r =>
               if r.id == u.id && r.version == u.version && !r.isDeleted then
                 { r with name := u.name, email := u.email, role := domain.UserRoleUser,
                          updatedAt := db.now }
               else r }) := by
      unfold userRepository.Update
      simp only [hvalid]
      rw [if_neg (by simpa using hne2)]
    have hupdu : (userService.UpdateUser db { u with role := domain.UserRoleUser }).1
        = .ok { u with role := domain.UserRoleUser, version := u.version + 1,
                       updatedAt := db.now } := by
      unfold userService.UpdateUser userService.validateUserForUpdate
      simp only [huidne, Bool.false_eq_true, if_false, hvalid, hget2]
      rw [if_neg (by simp)]
      simp only [hupd]
    have hvrc : userService.validateRoleChange db u domain.UserRoleUser = none := by
      unfold userService.validateRoleChange
      rw [if_pos (by rw [hadmin]; decide), if_neg hnle]
    refine ⟨{ u with role := domain.UserRoleUser, version := u.version + 1, updatedAt := db.now }, ?_⟩
    unfold userService.ChangeUserRole
    simp only [hget]
    rw [if_neg (by simp)]
    simp only [hvrc]
    exact hupdu

/-- User `i` of the over-1000-user store: all share one name, ids and
emails are two-rune strings, `createdAt` decreases with `i` so the default
`created_at DESC` listing returns them in index order.  Users 500 and 1000
are admins; everyone else has role `user`. -/
def c4cexUser (i : Nat) : domain.User :=
  { id := [117, i], name := [110], email := [101, i],
    role := if i == 500 || i == 1000 then domain.UserRoleAdmin else domain.UserRoleUser,
    createdAt := 2000 - i, updatedAt := 0, version := 1, isDeleted := false,
    deletedAt := none }

/-- A store of 1001 non-deleted users containing exactly two admins, the
older of which falls outside the 1000-user scan window. -/
def c4cexDB : DB := { emptyDB with users := (List.range 1001).map c4cexUser }

set_option maxRecDepth 100000 in
/-- Counterexample for C4 as stated: this store has two non-deleted
admins, yet `DeleteUser` on the admin inside the scan window is blocked
with `BusinessRuleViolation`, because `countAdminUsers` lists at most 1000
users and the second admin is the 1001st row of the default ordering. -/
theorem c4_two_admins_blocked_beyond_scan_cap :
    trueAdminCount c4cexDB = 2
    ∧ (userService.DeleteUser c4cexDB [117, 500] 1).1
      = some (ErrBusinessRule (str "cannot delete the last admin user")) := by
  constructor
  · decide
  · decide

/-- First admin of the two-admin witness store. -/
def c4wA : domain.User :=
  { id := str "a1", name := str "ann", email := str "a@x.com",
    role := domain.UserRoleAdmin, createdAt := 2, updatedAt := 0, version := 1,
    isDeleted := false, deletedAt := none }

/-- Second admin of the two-admin witness store. -/
def c4wB : domain.User :=
  { id := str "a2", name := str "bob", email := str "b@x.com",
    role := domain.UserRoleAdmin, createdAt := 1, updatedAt := 0, version := 1,
    isDeleted := false, deletedAt := none }

/-- Store with two non-deleted admins. -/
def c4wDB : DB := { emptyDB with users := [c4wA, c4wB], now := 4 }

/-- Witness for C4 (amended): with two admins in a small store, neither
the deletion nor the demotion of one admin is blocked. -/
theorem c4_last_admin_protection_amended_witness :
    (userService.DeleteUser c4wDB (str "a1") c4wA.version).1 = none
    ∧ ∃ w, (userService.ChangeUserRole c4wDB (str "a1") domain.UserRoleUser c4wA.version).1
        = .ok w :=
  (c4_last_admin_protection_amended c4wDB (str "a1") c4wA (by decide) (by decide)
    (by decide)).2 (by decide) (by decide) (by decide) (by decide)

/-- C5: for an existing acting user whose stored role is `user` or `admin`
and a required role among those two, `ValidateUserPermissions` returns nil
exactly when the actor's rank (`user` = 1, `admin` = 2) is at least the
required rank, and `PermissionDenied` otherwise; for a failed lookup the
error is propagated wrapped — an error that is not `PermissionDenied`. -/
theorem c5_validate_user_permissions_rank_semantics (db : DB) (userID : Str) :
    (∀ u, userRepository.GetByID db userID = .ok u →
      u.role ∈ [domain.UserRoleUser, domain.UserRoleAdmin] →
      ∀ requiredRole ∈ [domain.UserRoleUser, domain.UserRoleAdmin],
        (userService.ValidateUserPermissions db userID requiredRole = none
          ↔ userService.roleHierarchy u.role ≥ userService.roleHierarchy requiredRole)
        ∧ (¬ userService.roleHierarchy u.role ≥ userService.roleHierarchy requiredRole →
            userService.ValidateUserPermissions db userID requiredRole
              = some (ErrPermissionDenied (str "insufficient role privileges"))))
    ∧ (∀ e, userRepository.GetByID db userID = .error e →
        ∀ requiredRole : Str,
          userService.ValidateUserPermissions db userID requiredRole
            = some (.wrapped (str "failed to get user for permission check") e)
          ∧ IsPermissionDeniedError
              (.wrapped (str "failed to get user for permission check") e) = false) := by
  constructor
  · intro u hu _ req _
    unfold userService.ValidateUserPermissions
    simp only [hu]
    unfold userService.hasRequiredRole
    by_cases hge : userService.roleHierarchy u.role ≥ userService.roleHierarchy req
    · simp [hge]
    · simp [hge]
  · intro e he req
    refine ⟨?_, rfl⟩
    unfold userService.ValidateUserPermissions
    simp only [he]

/-- Admin actor for the permission-check witness store. -/
def c5Admin : domain.User :=
  { id := str "a1", name := str "root", email := str "root@x.com",
    role := domain.UserRoleAdmin, createdAt := 0, updatedAt := 0, version := 1,
    isDeleted := false, deletedAt := none }

/-- Store for the permission-check witness. -/
def c5DB : DB := { emptyDB with users := [c5Admin] }

/-- Witness for C5: the admin actor satisfies a `user` requirement. -/
theorem c5_validate_user_permissions_rank_semantics_witness :
    userService.ValidateUserPermissions c5DB (str "a1") domain.UserRoleUser = none :=
  ((c5_validate_user_permissions_rank_semantics c5DB (str "a1")).1 c5Admin (by decide)
    (by decide) domain.UserRoleUser (by decide)).1.mpr (by decide)

/-- C10: the role-rank map sends every role outside `user`/`admin` to
rank 0, so any existing actor passes an unrecognized required role, and an
actor with an unrecognized stored role fails both the `user` and the
`admin` requirement with `PermissionDenied`. -/
theorem c10_unrecognized_roles_rank_zero (db : DB) (userID : Str) (u : domain.User)
    (hget : userRepository.GetByID db userID = .ok u) :
    (∀ requiredRole : Str, requiredRole ≠ domain.UserRoleUser →
        requiredRole ≠ domain.UserRoleAdmin →
        userService.roleHierarchy requiredRole = 0
        ∧ userService.ValidateUserPermissions db userID requiredRole = none)
    ∧ (u.role ≠ domain.UserRoleUser → u.role ≠ domain.UserRoleAdmin →
        ∀ requiredRole ∈ [domain.UserRoleUser, domain.UserRoleAdmin],
          userService.ValidateUserPermissions db userID requiredRole
            = some (ErrPermissionDenied (str "insufficient role privileges"))) := by
  constructor
  · intro req h1 h2
    have hzero : userService.roleHierarchy req = 0 := by
      unfold userService.roleHierarchy
      rw [if_neg (by simpa using h1), if_neg (by simpa using h2)]
    refine ⟨hzero, ?_⟩
    unfold userService.ValidateUserPermissions
    simp only [hget]
    have htrue : userService.hasRequiredRole u.role req = true := by
      unfold userService.hasRequiredRole
      rw [hzero]
      simp
    rw [htrue]
    simp
  · intro h1 h2 req hreq
    have hzero : userService.roleHierarchy u.role = 0 := by
      unfold userService.roleHierarchy
      rw [if_neg (by simpa using h1), if_neg (by simpa using h2)]
    have hpos : 0 < userService.roleHierarchy req := by
      rcases List.mem_cons.mp hreq with rfl | hr
      · decide
      · simp only [List.mem_singleton] at hr
        subst hr
        decide
    unfold userService.ValidateUserPermissions
    simp only [hget]
    have hfalse : userService.hasRequiredRole u.role req = false := by
      unfold userService.hasRequiredRole
      rw [hzero]
      simp
      omega
    rw [hfalse]
    simp

/-- A user whose stored role is outside the role map. -/
def c10Mod : domain.User :=
  { id := str "m1", name := str "mia", email := str "m@x.com",
    role := str "moderator", createdAt := 0, updatedAt := 0, version := 1,
    isDeleted := false, deletedAt := none }

/-- Store for the unknown-role witness. -/
def c10DB : DB := { emptyDB with users := [c10Mod] }

/-- Witness for C10: an unrecognized required role ranks 0 and the check
passes for an existing user. -/
theorem c10_unrecognized_roles_rank_zero_witness :
    userService.roleHierarchy (str "owner") = 0
    ∧ userService.ValidateUserPermissions c10DB (str "m1") (str "owner") = none :=
  (c10_unrecognized_roles_rank_zero c10DB (str "m1") c10Mod (by decide)).1
    (str "owner") (by decide) (by decide)
